import Mathlib

/-!
# Element: plugin manager and audio-router size button

A shallow embedding of `Source/session/PluginManager.cpp` and of the size
button of `src/gui/nodes/AudioRouterEditor.cpp`.

The C++ objects become plain values: the manager's `Private` block is a
structure that every member function receives and, when it writes to it,
returns.  `double` values are only stored and forwarded by this code (no
arithmetic is done on them), so they are carried as rationals; `int` values
are integers.  Library classes the two files only call into (the format
manager, the known-plugin list, the directory scanner, the settings store)
are modelled from the specification and marked as such.
-/

namespace Element

/-! ## Data model -/

/-- Modelled from the spec: `PluginDescription` (JUCE, declared outside the two
source files).  Section 3 lists name, format name, file or URI location, the
identifying key and the capability flags. -/
structure PluginDescription where
  name : String
  pluginFormatName : String
  fileOrIdentifier : String
  identifyingKey : String
  isInstrument : Bool
  numInputChannels : Int
  numOutputChannels : Int
  deriving DecidableEq, Repr

/-- Modelled from the spec: a live plugin object.  It remembers the description
and the playback parameters its backend was handed; `isProcessor` is its
dynamic type, that is whether `dynamic_cast<Processor*>` succeeds on it. -/
structure AudioPluginInstance where
  description : PluginDescription
  sampleRate : Rat
  blockSize : Int
  isProcessor : Bool
  deriving DecidableEq, Repr

/-- Modelled from the spec: `AudioPluginFormat`, the per-technology backend
(section 3 and the capability interface of section 9).  `getName` and
`getDefaultLocationsToSearch` are the two members the source calls;
`candidatesIn` lists the files or URIs found under a list of locations
(second argument: recursive search), `scanCandidate` probes one of them
(`none` when it fails to load) and `instantiate` builds an instance or gives
a diagnostic. -/
structure AudioPluginFormat where
  getName : String
  getDefaultLocationsToSearch : List String
  candidatesIn : List String → Bool → List String
  scanCandidate : String → Option (List PluginDescription)
  instantiate : PluginDescription → Rat → Int → Except String AudioPluginInstance

/-- Modelled from the spec: `AudioPluginFormatManager`, the ordered registry of
backends (section 4.1), insertion order preserved.  The registry owns the
backends it was handed; a null pointer is never registered. -/
structure AudioPluginFormatManager where
  formats : List AudioPluginFormat

/-- Registry `count()`. -/
def AudioPluginFormatManager.getNumFormats (fm : AudioPluginFormatManager) : Nat :=
  fm.formats.length

/-- Registry `get(index)`; a null pointer outside the range. -/
def AudioPluginFormatManager.getFormat (fm : AudioPluginFormatManager) (i : Nat) :
    Option AudioPluginFormat :=
  fm.formats.get? i

/-- Registry `addFormat(backend)`: appends, no de-duplication by name. -/
def AudioPluginFormatManager.addFormat (fm : AudioPluginFormatManager)
    (fmt : AudioPluginFormat) : AudioPluginFormatManager :=
  { formats := fm.formats ++ [fmt] }

/-- Modelled from the spec: `KnownPluginList`, the ordered catalogue of known
descriptions (section 4.2). -/
structure KnownPluginList where
  types : List PluginDescription
  deriving DecidableEq, Repr

/-- The state of `PluginManager::Private` (lines 11-31). -/
structure PluginManager where
  allPlugins : KnownPluginList
  formats : AudioPluginFormatManager
  sampleRate : Rat
  blockSize : Int

/-- The constructor `Private()`: empty catalogue and registry, 44100 Hz, 512. -/
def PluginManager.new : PluginManager :=
  { allPlugins := { types := [] }, formats := { formats := [] }, sampleRate := 44100, blockSize := 512 }

/-- `PluginManager::addFormat` (lines 55-58). -/
def PluginManager.addFormat (m : PluginManager) (fmt : AudioPluginFormat) : PluginManager :=
  { m with formats := m.formats.addFormat fmt }

/-- The loop of `PluginManager::format` (lines 74-79), entered at index `i`. -/
def PluginManager.formatLoop (m : PluginManager) (name : String) (i : Nat) :
    Option AudioPluginFormat :=
  if i < m.formats.getNumFormats then
    match m.formats.getFormat i with
    | some fmt => if fmt.getName = name then some fmt else m.formatLoop name (i + 1)
    | none => m.formatLoop name (i + 1)
  else none
termination_by m.formats.getNumFormats - i

/-- `PluginManager::format` (lines 72-82); `none` is the null pointer. -/
def PluginManager.format (m : PluginManager) (name : String) : Option AudioPluginFormat :=
  m.formatLoop name 0

/-- `PluginManager::addDefaultFormats` (lines 47-53): the formats the library
registers for this build, then the LV2 format when `ELEMENT_LV2_PLUGIN_HOST`
is set (`lv2` is `none` otherwise). -/
def PluginManager.addDefaultFormats (m : PluginManager) (builtIn : List AudioPluginFormat)
    (lv2 : Option AudioPluginFormat) : PluginManager :=
  let m1 : PluginManager := { m with formats := builtIn.foldl (fun fm f => fm.addFormat f) m.formats }
  match lv2 with
  | some fmt => m1.addFormat fmt
  | none => m1

/-! ### Instantiation -/

/-- The failure reported when no backend owns a description (section 7,
FormatUnavailable). -/
def formatUnavailable : String := "format unavailable"

/-- Registry `findByName(name)`: first backend in registration order whose
name equals the query. -/
def AudioPluginFormatManager.findByName (fm : AudioPluginFormatManager) (name : String) :
    Option AudioPluginFormat :=
  fm.formats.find? (fun f => decide (f.getName = name))

/-- Modelled from the spec: `AudioPluginFormatManager::createPluginInstance`
(JUCE, not among the sources).  Section 4.4: the owning backend is located by
the description's format name; absent, the call fails with "format
unavailable"; otherwise the backend instantiates with the given sample rate
and block size, and its diagnostic is returned verbatim on failure.  The
second component is the `String&` error message after the call. -/
def AudioPluginFormatManager.createPluginInstance (fm : AudioPluginFormatManager)
    (desc : PluginDescription) (rate : Rat) (blockSize : Int) (errorMessage : String) :
    Option AudioPluginInstance × String :=
  match fm.findByName desc.pluginFormatName with
  | none => (none, formatUnavailable)
  | some fmt =>
    match fmt.instantiate desc rate blockSize with
    | Except.ok inst => (some inst, errorMessage)
    | Except.error diagnostic => (none, diagnostic)

/-- What a creating call leaves behind: the returned pointer, the error
message reference and the manager. -/
structure Created where
  result : Option AudioPluginInstance
  errorMsg : String
  manager : PluginManager

/-- `PluginManager::createAudioPlugin` (lines 60-63). -/
def PluginManager.createAudioPlugin (m : PluginManager) (desc : PluginDescription)
    (errorMsg : String) : Created :=
  let r := m.formats.createPluginInstance desc m.sampleRate m.blockSize errorMsg
  { result := r.1, errorMsg := r.2, manager := m }

/-- The cast `dynamic_cast<Processor*> (instance)`: null unless the object is a
`Processor`. -/
def dynamicCastProcessor (inst : AudioPluginInstance) : Option AudioPluginInstance :=
  if inst.isProcessor then some inst else none

/-- `PluginManager::createPlugin` (lines 65-70). -/
def PluginManager.createPlugin (m : PluginManager) (desc : PluginDescription)
    (errorMsg : String) : Created :=
  let c := m.createAudioPlugin desc errorMsg
  match c.result with
  | some inst => { c with result := dynamicCastProcessor inst }
  | none => { c with result := none }

/-- `PluginManager::setPlayConfig` (lines 123-127). -/
def PluginManager.setPlayConfig (m : PluginManager) (sampleRate : Rat) (blockSize : Int) :
    PluginManager :=
  { m with sampleRate := sampleRate, blockSize := blockSize }

/-! ### Catalogue -/

/-- The key two catalogue entries may not share: the identifying key within a
format (section 3). -/
def PluginDescription.key (d : PluginDescription) : String × String :=
  (d.pluginFormatName, d.identifyingKey)

/-- Catalogue `add` on the entry list: an entry with the same key is replaced in
place, otherwise the description is appended. -/
def addTypeTo : List PluginDescription → PluginDescription → List PluginDescription
  | [], d => [d]
  | e :: es, d => if e.key = d.key then d :: es else e :: addTypeTo es d

/-- Modelled from the spec: catalogue `add(description)` (section 4.2). -/
def KnownPluginList.addType (l : KnownPluginList) (d : PluginDescription) : KnownPluginList :=
  { types := addTypeTo l.types d }

/-- Merging everything one candidate yielded, in order. -/
def KnownPluginList.addAll (l : KnownPluginList) (ds : List PluginDescription) :
    KnownPluginList :=
  ds.foldl KnownPluginList.addType l

/-- Modelled from the spec: one entry of the serialized catalogue document;
either it encodes a description or it is malformed (section 6). -/
inductive XmlEntry where
  | plugin (d : PluginDescription)
  | malformed (text : String)
  deriving DecidableEq, Repr

/-- Modelled from the spec: the serialized catalogue document, a root listing
plugin entries. -/
structure XmlElement where
  entries : List XmlEntry
  deriving DecidableEq, Repr

/-- Parsing one entry; a malformed one yields nothing. -/
def XmlEntry.load : XmlEntry → Option PluginDescription
  | XmlEntry.plugin d => some d
  | XmlEntry.malformed _ => none

/-- Modelled from the spec: catalogue `serialize()`. -/
def KnownPluginList.createXml (l : KnownPluginList) : XmlElement :=
  { entries := l.types.map XmlEntry.plugin }

/-- Modelled from the spec: catalogue `restore(Document)`: the contents are
replaced wholesale by the entries that parse, malformed ones skipped, each
merged by `add`. -/
def KnownPluginList.recreateFromXml (_old : KnownPluginList) (xml : XmlElement) :
    KnownPluginList :=
  KnownPluginList.addAll { types := [] } (xml.entries.filterMap XmlEntry.load)

/-- The keys of a catalogue, in order. -/
def KnownPluginList.keys (l : KnownPluginList) : List (String × String) :=
  l.types.map PluginDescription.key

/-- Number of entries of the native format. -/
def KnownPluginList.nativeCount (l : KnownPluginList) : Nat :=
  (l.types.filter (fun d => decide (d.pluginFormatName = "Element"))).length

/-- The value an entry `e` ends with once the descriptions of `ds` were added in
order: the last one carrying its key, or `e` itself when there is none. -/
def headAfter (e : PluginDescription) (ds : List PluginDescription) : PluginDescription :=
  ds.foldl (fun acc d => if acc.key = d.key then d else acc) e

/-- The descriptions of `ds` that do not carry the key `k`. -/
def withoutKey (k : String × String) (ds : List PluginDescription) : List PluginDescription :=
  ds.filter (fun d => decide (d.key ≠ k))

/-! ### Directory scanner -/

/-- Modelled from the spec: the Discovery Scanner (section 4.3).  It is built
against a catalogue, a backend, search locations, the recursive flag, an
optional dead-man's-switch file (`none` is `File::nonexistent`) and the
separate-process flag; `filesToScan` are the candidates not yet probed and
`probed` lists the candidates handled so far, each with the `probeSeparately`
argument of the step that handled it. -/
structure PluginDirectoryScanner where
  list : KnownPluginList
  format : AudioPluginFormat
  directoriesToSearch : List String
  searchRecursively : Bool
  deadMansPedalFile : Option String
  separateProcess : Bool
  filesToScan : List String
  failedFiles : List String
  probed : List (String × Bool)

/-- Scanner construction: the candidates are those the backend finds under the
given locations. -/
def PluginDirectoryScanner.create (list : KnownPluginList) (format : AudioPluginFormat)
    (directoriesToSearch : List String) (searchRecursively : Bool)
    (deadMansPedalFile : Option String) (separateProcess : Bool) : PluginDirectoryScanner :=
  { list := list, format := format, directoriesToSearch := directoriesToSearch,
    searchRecursively := searchRecursively, deadMansPedalFile := deadMansPedalFile,
    separateProcess := separateProcess,
    filesToScan := format.candidatesIn directoriesToSearch searchRecursively,
    failedFiles := [], probed := [] }

/-- Modelled from the spec: `scanNextFile (probeSeparately)`: one candidate is
probed in the way the argument asks for; what it yields is merged into the
catalogue, a candidate that fails to load is recorded and skipped.  Returns
whether more work remains, the name of the file handled (the `String&`
argument, untouched when nothing was left) and the scanner afterwards. -/
def PluginDirectoryScanner.scanNextFile (s : PluginDirectoryScanner) (probeSeparately : Bool)
    (name : String) : Bool × String × PluginDirectoryScanner :=
  match s.filesToScan with
  | [] => (false, name, s)
  | file :: rest =>
    match s.format.scanCandidate file with
    | some found =>
      (!rest.isEmpty, file,
        { s with list := s.list.addAll found, filesToScan := rest,
                 probed := s.probed ++ [(file, probeSeparately)] })
    | none =>
      (!rest.isEmpty, file,
        { s with filesToScan := rest, failedFiles := s.failedFiles ++ [file],
                 probed := s.probed ++ [(file, probeSeparately)] })

/-- The loop `while (scanner.scanNextFile (true, name)) {}` (line 142). -/
def PluginDirectoryScanner.drain (s : PluginDirectoryScanner) (name : String) :
    PluginDirectoryScanner :=
  if (s.scanNextFile true name).1 = true then
    PluginDirectoryScanner.drain (s.scanNextFile true name).2.2 (s.scanNextFile true name).2.1
  else (s.scanNextFile true name).2.2
termination_by s.filesToScan.length
decreasing_by
  rename_i hmore
  revert hmore
  unfold PluginDirectoryScanner.scanNextFile
  split
  · simp
  · rename_i file rest hf
    split <;> simp [hf]

/-- What a run of `scanInternalPlugins` leaves behind: the manager, and the
local `scanner` object as it was when it went out of scope (`none` when the
loop never built one). -/
structure InternalScan where
  manager : PluginManager
  scanner : Option PluginDirectoryScanner

/-- The loop of `PluginManager::scanInternalPlugins` (lines 131-145), entered at
index `i`.  The index is in range, so `getFormat (i)` is not null.  The
scanner works on `availablePlugins()` by reference, so the catalogue it ends
with is the manager's. -/
def PluginManager.scanInternalPluginsLoop (m : PluginManager) (i : Nat) : InternalScan :=
  if h : i < m.formats.getNumFormats then
    let format := m.formats.formats.get ⟨i, h⟩
    if format.getName ≠ "Element" then
      m.scanInternalPluginsLoop (i + 1)
    else
      let scanner := (PluginDirectoryScanner.create m.allPlugins format
        format.getDefaultLocationsToSearch true none false).drain ""
      { manager := { m with allPlugins := scanner.list }, scanner := some scanner }
  else { manager := m, scanner := none }
termination_by m.formats.getNumFormats - i

/-- `PluginManager::scanInternalPlugins` (lines 129-146). -/
def PluginManager.scanInternalPlugins (m : PluginManager) : PluginManager :=
  (m.scanInternalPluginsLoop 0).manager

/-- Everything a backend yields over a list of candidates, in probing order; a
candidate that fails to load yields nothing. -/
def AudioPluginFormat.allFound (fmt : AudioPluginFormat) (files : List String) :
    List PluginDescription :=
  (files.filterMap fmt.scanCandidate).flatten

/-- What an internal scan finds: the yield of the first backend named
"Element" over its default locations, searched recursively; nothing when no
such backend is registered. -/
def PluginManager.internalFinds (m : PluginManager) : List PluginDescription :=
  match m.formats.findByName "Element" with
  | none => []
  | some fmt => fmt.allFound (fmt.candidatesIn fmt.getDefaultLocationsToSearch true)

/-! ### Persistence -/

/-- The two key constants `Settings::pluginListKey` and
`Settings::pluginListKey64` (declared in `Settings.h`, not among the sources). -/
structure Settings where
  pluginListKey : String
  pluginListKey64 : String
  deriving DecidableEq, Repr

/-- What `pluginListKey()` depends on: the build target (`JUCE_MAC`) and
`SystemStats::isOperatingSystem64Bit()`. -/
structure Host where
  JUCE_MAC : Bool
  isOperatingSystem64Bit : Bool
  deriving DecidableEq, Repr

/-- `pluginListKey()` (lines 95-103). -/
def pluginListKey (S : Settings) (host : Host) : String :=
  if host.JUCE_MAC then S.pluginListKey
  else if host.isOperatingSystem64Bit then S.pluginListKey64 else S.pluginListKey

/-- Modelled from the spec: the settings store (section 6), a key-value store of
serialized documents. -/
structure ApplicationProperties where
  userSettings : List (String × XmlElement)
  deriving DecidableEq, Repr

/-- Store `setValue(key, document)`: the document replaces what the key held. -/
def ApplicationProperties.setValue (p : ApplicationProperties) (key : String)
    (xml : XmlElement) : ApplicationProperties :=
  { userSettings := (key, xml) :: p.userSettings.filter (fun kv => decide (kv.1 ≠ key)) }

/-- Store `getValue(key)`: the document under the key, or absent. -/
def ApplicationProperties.getXmlValue (p : ApplicationProperties) (key : String) :
    Option XmlElement :=
  (p.userSettings.find? (fun kv => decide (kv.1 = key))).map Prod.snd

/-- `PluginManager::saveUserPlugins` (lines 105-109); the store afterwards. -/
def PluginManager.saveUserPlugins (S : Settings) (host : Host) (m : PluginManager)
    (settings : ApplicationProperties) : ApplicationProperties :=
  settings.setValue (pluginListKey S host) m.allPlugins.createXml

/-- `PluginManager::restoreUserPlugins (const XmlElement&)` (lines 117-121). -/
def PluginManager.restoreUserPluginsXml (m : PluginManager) (xml : XmlElement) : PluginManager :=
  PluginManager.scanInternalPlugins { m with allPlugins := m.allPlugins.recreateFromXml xml }

/-- `PluginManager::restoreUserPlugins (ApplicationProperties&)` (lines 111-115). -/
def PluginManager.restoreUserPlugins (S : Settings) (host : Host) (m : PluginManager)
    (settings : ApplicationProperties) : PluginManager :=
  match settings.getXmlValue (pluginListKey S host) with
  | some xml => m.restoreUserPluginsXml xml
  | none => m

/-! ### Call sequences -/

/-- One call on the manager's public interface. -/
inductive Call where
  | addDefaultFormats (builtIn : List AudioPluginFormat) (lv2 : Option AudioPluginFormat)
  | addFormat (fmt : AudioPluginFormat)
  | createAudioPlugin (desc : PluginDescription) (errorMsg : String)
  | createPlugin (desc : PluginDescription) (errorMsg : String)
  | saveUserPlugins (settings : ApplicationProperties)
  | restoreUserPlugins (settings : ApplicationProperties)
  | restoreUserPluginsXml (xml : XmlElement)
  | setPlayConfig (sampleRate : Rat) (blockSize : Int)
  | scanInternalPlugins

/-- Whether a call is `setPlayConfig`. -/
def Call.isSetPlayConfig : Call → Bool
  | Call.setPlayConfig _ _ => true
  | _ => false

/-- The manager after one call. -/
def PluginManager.call (S : Settings) (host : Host) (m : PluginManager) : Call → PluginManager
  | Call.addDefaultFormats builtIn lv2 => m.addDefaultFormats builtIn lv2
  | Call.addFormat fmt => m.addFormat fmt
  | Call.createAudioPlugin desc errorMsg => (m.createAudioPlugin desc errorMsg).manager
  | Call.createPlugin desc errorMsg => (m.createPlugin desc errorMsg).manager
  | Call.saveUserPlugins _ => m
  | Call.restoreUserPlugins settings => PluginManager.restoreUserPlugins S host m settings
  | Call.restoreUserPluginsXml xml => m.restoreUserPluginsXml xml
  | Call.setPlayConfig sampleRate blockSize => m.setPlayConfig sampleRate blockSize
  | Call.scanInternalPlugins => m.scanInternalPlugins

/-- The manager after a sequence of calls. -/
def PluginManager.run (S : Settings) (host : Host) (m : PluginManager) (calls : List Call) :
    PluginManager :=
  calls.foldl (PluginManager.call S host) m

/-! ### Audio router size button -/

/-- One `menu.addItem (itemResultID, itemText, isEnabled, isTicked)`. -/
structure MenuItem where
  itemResultID : Int
  itemText : String
  isEnabled : Bool
  isTicked : Bool
  deriving DecidableEq, Repr

/-- The menu built by the `onClick` handler (lines 103-109), in source order. -/
def sizeMenu : List MenuItem :=
  [ { itemResultID := 2, itemText := "2x2", isEnabled := true, isTicked := false },
    { itemResultID := 4, itemText := "4x4", isEnabled := true, isTicked := false },
    { itemResultID := 8, itemText := "8x8", isEnabled := true, isTicked := false },
    { itemResultID := 10, itemText := "10x10", isEnabled := true, isTicked := false },
    { itemResultID := 10, itemText := "12x12", isEnabled := true, isTicked := false },
    { itemResultID := 16, itemText := "16x16", isEnabled := true, isTicked := false } ]

/-- The result code `showMenuAsync` delivers: the id of the entry the user
picked (by its text), 0 when the menu is dismissed (`none`) or when no entry
carries that text. -/
def menuResult (menu : List MenuItem) (picked : Option String) : Int :=
  match picked with
  | none => 0
  | some text =>
    match menu.find? (fun item => decide (item.itemText = text)) with
    | some item => item.itemResultID
    | none => 0

/-- The label "NxN" of a square size. -/
def sizeLabel (n : Nat) : String :=
  toString n ++ "x" ++ toString n

/-- The router node as the editor sees it: the size it was last given.
`AudioRouterNode::setSize` lives in `engine/nodes/AudioRouterNode.cpp`, which is
not among the sources; the node is reduced to the two arguments it receives,
and `getMatrixState` is taken to report a matrix of that size. -/
structure AudioRouterNode where
  numSources : Int
  numDestinations : Int
  deriving DecidableEq, Repr

/-- The call `node->setSize (sources, destinations)`. -/
def AudioRouterNode.setSize (_node : AudioRouterNode) (sources destinations : Int) :
    AudioRouterNode :=
  { numSources := sources, numDestinations := destinations }

/-- What the size callback touches in `AudioRouterEditor`: the node object
(`none` when `getNodeObjectOfType<AudioRouterNode>()` is null), the
`autoResize` flag and the size of the editor's copy of the matrix state. -/
structure AudioRouterEditor where
  node : Option AudioRouterNode
  autoResize : Bool
  matrixRows : Int
  matrixColumns : Int
  deriving DecidableEq, Repr

/-- The callback installed by `Content` (lines 160-172); widget bounds are not
modelled. -/
def Content.onAudioRouterSizeChanged (owner : AudioRouterEditor) (size : Int) :
    AudioRouterEditor :=
  match owner.node with
  | some node =>
    let node2 := node.setSize size size
    if owner.autoResize then
      { owner with node := some node2, matrixRows := node2.numSources,
                   matrixColumns := node2.numDestinations }
    else { owner with node := some node2 }
  | none => owner

/-- The size button: whether `onAudioRouterSizeChanged` holds a callable, and
its text. -/
structure AudioRouterSizeButton where
  onAudioRouterSizeChanged : Option (AudioRouterEditor → Int → AudioRouterEditor)
  buttonText : String

/-- `AudioRouterSizeButton::handleSizeResult` (lines 133-139): the callback runs
when `r > 1` and a callback is set; the button text is then reset. -/
def AudioRouterSizeButton.handleSizeResult (btn : AudioRouterSizeButton) (r : Int)
    (owner : AudioRouterEditor) : AudioRouterSizeButton × AudioRouterEditor :=
  let owner2 :=
    match btn.onAudioRouterSizeChanged with
    | some callback => if r > 1 then callback owner r else owner
    | none => owner
  ({ btn with buttonText := "Size" }, owner2)

/-- `AudioRouterSizeButton::sizeChosen` (lines 141-145); `me` is the weak
reference, `none` once the button is gone. -/
def AudioRouterSizeButton.sizeChosen (code : Int) (me : Option AudioRouterSizeButton)
    (owner : AudioRouterEditor) : Option AudioRouterSizeButton × AudioRouterEditor :=
  match me with
  | some btn => ((btn.handleSizeResult code owner).1, (btn.handleSizeResult code owner).2)
  | none => (none, owner)

/-- The button as `Content` sets it up (lines 158-172). -/
def contentSizeButton : AudioRouterSizeButton :=
  { onAudioRouterSizeChanged := some Content.onAudioRouterSizeChanged, buttonText := "Size" }

/-- Clicking the button and picking an entry (or dismissing the menu): the
editor afterwards. -/
def clickSizeEntry (picked : Option String) (owner : AudioRouterEditor) : AudioRouterEditor :=
  (AudioRouterSizeButton.sizeChosen (menuResult sizeMenu picked) (some contentSizeButton) owner).2

/-! ### Sample values -/

/-- A description of a bundled plugin of the native format. -/
def gainDescription : PluginDescription :=
  { name := "Gain", pluginFormatName := "Element", fileOrIdentifier := "element.gain",
    identifyingKey := "gain", isInstrument := false, numInputChannels := 2,
    numOutputChannels := 2 }

/-- A description of a third-party plugin of another format. -/
def synthDescription : PluginDescription :=
  { name := "Synth", pluginFormatName := "VST", fileOrIdentifier := "/plugins/synth.vst",
    identifyingKey := "synth", isInstrument := true, numInputChannels := 0,
    numOutputChannels := 2 }

/-- A native backend: one bundled candidate holding the gain plugin; its
instances are `Processor` objects. -/
def elementFormat : AudioPluginFormat :=
  { getName := "Element"
    getDefaultLocationsToSearch := ["internal"]
    candidatesIn := fun _ _ => ["element.gain"]
    scanCandidate := fun file => if file = "element.gain" then some [gainDescription] else none
    instantiate := fun d sr bs =>
      Except.ok { description := d, sampleRate := sr, blockSize := bs, isProcessor := true } }

/-- A third-party backend: nothing to scan; its instances are plain
`AudioPluginInstance` objects, not `Processor` ones. -/
def vstFormat : AudioPluginFormat :=
  { getName := "VST"
    getDefaultLocationsToSearch := []
    candidatesIn := fun _ _ => []
    scanCandidate := fun _ => none
    instantiate := fun d sr bs =>
      Except.ok { description := d, sampleRate := sr, blockSize := bs, isProcessor := false } }

/-- Sample key constants. -/
def sampleSettings : Settings :=
  { pluginListKey := "pluginList", pluginListKey64 := "pluginList64" }

/-! ## Lemmas -/

theorem formatLoop_eq_find (m : PluginManager) (name : String) (i : Nat) :
    m.formatLoop name i = (m.formats.formats.drop i).find? (fun f => decide (f.getName = name)) := by
  induction i using PluginManager.formatLoop.induct m name with
  | case1 i hi fmt hget hname =>
    rw [PluginManager.formatLoop]
    simp only [hi, if_true, hget, hname]
    simp only [AudioPluginFormatManager.getFormat] at hget
    rw [List.get?_eq_some] at hget
    obtain ⟨h, hg⟩ := hget
    have hg2 : m.formats.formats[i] = fmt := hg
    rw [List.drop_eq_getElem_cons h, hg2, List.find?_cons_of_pos]
    simpa using hname
  | case2 i hi fmt hget hname ih =>
    rw [PluginManager.formatLoop]
    simp only [hi, if_true, hget, hname, if_false, ih]
    simp only [AudioPluginFormatManager.getFormat] at hget
    rw [List.get?_eq_some] at hget
    obtain ⟨h, hg⟩ := hget
    have hg2 : m.formats.formats[i] = fmt := hg
    rw [List.drop_eq_getElem_cons h, hg2, List.find?_cons_of_neg]
    simpa using hname
  | case3 i hi hget ih =>
    exfalso
    simp only [AudioPluginFormatManager.getFormat, AudioPluginFormatManager.getNumFormats] at hget hi
    rw [List.get?_eq_none] at hget
    omega
  | case4 i hi =>
    rw [PluginManager.formatLoop]
    simp only [hi, if_false]
    simp only [AudioPluginFormatManager.getNumFormats, not_lt] at hi
    rw [List.drop_of_length_le hi]
    rfl

theorem format_eq_find (m : PluginManager) (name : String) :
    m.format name = m.formats.formats.find? (fun f => decide (f.getName = name)) := by
  rw [PluginManager.format, formatLoop_eq_find, List.drop_zero]

theorem find_eq_some_index {α : Type} (p : α → Bool) (l : List α) (b : α) :
    l.find? p = some b ↔
      ∃ i, l.get? i = some b ∧ p b = true ∧
        ∀ j, j < i → ∀ g, l.get? j = some g → p g = false := by
  induction l with
  | nil => simp
  | cons a l ih =>
    by_cases hpa : p a = true
    · rw [List.find?_cons_of_pos _ hpa]
      constructor
      · intro h
        have hab : a = b := Option.some.inj h
        subst hab
        exact ⟨0, rfl, hpa, fun j hj => absurd hj (Nat.not_lt_zero j)⟩
      · rintro ⟨i, hi, -, hlt⟩
        cases i with
        | zero => exact hi
        | succ i =>
          have := hlt 0 (Nat.succ_pos i) a rfl
          rw [hpa] at this
          exact absurd this (by decide)
    · rw [List.find?_cons_of_neg _ hpa, ih]
      constructor
      · rintro ⟨i, hi, hpb, hlt⟩
        refine ⟨i + 1, hi, hpb, ?_⟩
        intro j hj g hg
        cases j with
        | zero =>
          have hga : a = g := Option.some.inj hg
          subst hga
          simpa using hpa
        | succ j => exact hlt j (Nat.lt_of_succ_lt_succ hj) g hg
      · rintro ⟨i, hi, hpb, hlt⟩
        cases i with
        | zero =>
          have hab : a = b := Option.some.inj hi
          subst hab
          exact absurd hpb hpa
        | succ i =>
          exact ⟨i, hi, hpb, fun j hj g hg => hlt (j + 1) (Nat.succ_lt_succ hj) g hg⟩

theorem find_append_of_mem {α : Type} (p : α → Bool) (l : List α) (x : α)
    (h : ∃ b ∈ l, p b = true) : (l ++ [x]).find? p = l.find? p := by
  induction l with
  | nil => obtain ⟨b, hb, -⟩ := h; cases hb
  | cons a l ih =>
    by_cases hpa : p a = true
    · simp [List.find?_cons_of_pos, hpa]
    · rw [List.cons_append, List.find?_cons_of_neg _ hpa, List.find?_cons_of_neg _ hpa]
      apply ih
      obtain ⟨b, hb, hpb⟩ := h
      rcases List.mem_cons.mp hb with rfl | hb
      · exact absurd hpb hpa
      · exact ⟨b, hb, hpb⟩

theorem drain_of_nil (s : PluginDirectoryScanner) (name : String) (h : s.filesToScan = []) :
    s.drain name = s := by
  rw [PluginDirectoryScanner.drain]
  simp [PluginDirectoryScanner.scanNextFile, h]

theorem drain_of_cons (s : PluginDirectoryScanner) (name file : String) (rest : List String)
    (h : s.filesToScan = file :: rest) :
    s.drain name = PluginDirectoryScanner.drain (s.scanNextFile true name).2.2 file := by
  by_cases hrest : rest = []
  · have hmore : (s.scanNextFile true name).1 = false := by
      simp only [PluginDirectoryScanner.scanNextFile, h]
      split <;> simp [hrest]
    have hleft : (s.scanNextFile true name).2.2.filesToScan = [] := by
      simp only [PluginDirectoryScanner.scanNextFile, h]
      split <;> simp [hrest]
    rw [drain_of_nil (s.scanNextFile true name).2.2 file hleft, PluginDirectoryScanner.drain]
    simp [hmore]
  · have hmore : (s.scanNextFile true name).1 = true := by
      simp only [PluginDirectoryScanner.scanNextFile, h]
      split <;> simp [hrest]
    have hname : (s.scanNextFile true name).2.1 = file := by
      simp only [PluginDirectoryScanner.scanNextFile, h]
      split <;> rfl
    rw [PluginDirectoryScanner.drain]
    simp [hmore, hname]

theorem allFound_cons (fmt : AudioPluginFormat) (file : String) (rest : List String) :
    fmt.allFound (file :: rest) = (fmt.scanCandidate file).getD [] ++ fmt.allFound rest := by
  unfold AudioPluginFormat.allFound
  cases h : fmt.scanCandidate file <;> simp [List.filterMap_cons, h]

theorem addAll_append (l : KnownPluginList) (xs ys : List PluginDescription) :
    l.addAll (xs ++ ys) = (l.addAll xs).addAll ys := by
  simp [KnownPluginList.addAll, List.foldl_append]

theorem drain_spec (files : List String) :
    ∀ (s : PluginDirectoryScanner) (name : String), s.filesToScan = files →
      (s.drain name).list = s.list.addAll (s.format.allFound files) ∧
      (s.drain name).filesToScan = [] ∧ (s.drain name).format = s.format := by
  induction files with
  | nil =>
    intro s name h
    rw [drain_of_nil s name h]
    exact ⟨rfl, h, rfl⟩
  | cons file rest ih =>
    intro s name h
    rw [drain_of_cons s name file rest h]
    have hleft : (s.scanNextFile true name).2.2.filesToScan = rest := by
      simp only [PluginDirectoryScanner.scanNextFile, h]
      split <;> rfl
    have hfmt : (s.scanNextFile true name).2.2.format = s.format := by
      simp only [PluginDirectoryScanner.scanNextFile, h]
      split <;> rfl
    have hlist : (s.scanNextFile true name).2.2.list =
        s.list.addAll ((s.format.scanCandidate file).getD []) := by
      simp only [PluginDirectoryScanner.scanNextFile, h]
      split <;> rename_i hc <;> simp [hc, KnownPluginList.addAll]
    obtain ⟨h1, h2, h3⟩ := ih _ file hleft
    refine ⟨?_, h2, h3.trans hfmt⟩
    rw [h1, hlist, hfmt, allFound_cons, addAll_append]

theorem scanLoop_eq (m : PluginManager) (i : Nat) :
    m.scanInternalPluginsLoop i =
      match (m.formats.formats.drop i).find? (fun f => decide (f.getName = "Element")) with
      | none => { manager := m, scanner := none }
      | some fmt =>
        { manager := { m with allPlugins := ((PluginDirectoryScanner.create m.allPlugins fmt
            fmt.getDefaultLocationsToSearch true none false).drain "").list },
          scanner := some ((PluginDirectoryScanner.create m.allPlugins fmt
            fmt.getDefaultLocationsToSearch true none false).drain "") } := by
  induction i using PluginManager.scanInternalPluginsLoop.induct m with
  | case1 i hi format hname ih =>
    rw [PluginManager.scanInternalPluginsLoop]
    have hlen : i < m.formats.formats.length := hi
    simp only [hi, dite_true, ih]
    rw [if_pos hname, List.drop_eq_getElem_cons hlen, List.find?_cons_of_neg]
    simpa using hname
  | case2 i hi format hname =>
    rw [PluginManager.scanInternalPluginsLoop]
    have hlen : i < m.formats.formats.length := hi
    simp only [hi, dite_true]
    rw [if_neg hname, List.drop_eq_getElem_cons hlen, List.find?_cons_of_pos]
    · rfl
    · simpa using hname
  | case3 i hi =>
    rw [PluginManager.scanInternalPluginsLoop]
    simp only [hi, dite_false]
    simp only [AudioPluginFormatManager.getNumFormats, not_lt] at hi
    rw [List.drop_of_length_le hi]
    rfl

theorem scanInternalPlugins_eq (m : PluginManager) :
    m.scanInternalPlugins = { m with allPlugins := m.allPlugins.addAll m.internalFinds } := by
  rw [PluginManager.scanInternalPlugins, scanLoop_eq, List.drop_zero]
  unfold PluginManager.internalFinds AudioPluginFormatManager.findByName
  cases m.formats.formats.find? (fun f => decide (f.getName = "Element")) with
  | none => simp [KnownPluginList.addAll]
  | some fmt =>
    simp only
    rw [(drain_spec _ _ "" rfl).1]
    rfl

/-! ### Playback configuration -/

theorem call_keeps_config (S : Settings) (host : Host) (m : PluginManager) (c : Call)
    (h : c.isSetPlayConfig = false) :
    (PluginManager.call S host m c).sampleRate = m.sampleRate ∧
    (PluginManager.call S host m c).blockSize = m.blockSize := by
  cases c with
  | addDefaultFormats builtIn lv2 =>
    cases lv2 <;> exact ⟨rfl, rfl⟩
  | addFormat fmt => exact ⟨rfl, rfl⟩
  | createAudioPlugin desc errorMsg => exact ⟨rfl, rfl⟩
  | createPlugin desc errorMsg =>
    simp only [PluginManager.call, PluginManager.createPlugin]
    split <;> exact ⟨rfl, rfl⟩
  | saveUserPlugins settings => exact ⟨rfl, rfl⟩
  | restoreUserPlugins settings =>
    simp only [PluginManager.call, PluginManager.restoreUserPlugins]
    split
    · rw [PluginManager.restoreUserPluginsXml, scanInternalPlugins_eq]
      exact ⟨rfl, rfl⟩
    · exact ⟨rfl, rfl⟩
  | restoreUserPluginsXml xml =>
    simp only [PluginManager.call]
    rw [PluginManager.restoreUserPluginsXml, scanInternalPlugins_eq]
    exact ⟨rfl, rfl⟩
  | setPlayConfig sampleRate blockSize => cases h
  | scanInternalPlugins =>
    simp only [PluginManager.call]
    rw [scanInternalPlugins_eq]
    exact ⟨rfl, rfl⟩

theorem run_keeps_config (S : Settings) (host : Host) (calls : List Call) :
    ∀ m : PluginManager, (∀ c ∈ calls, c.isSetPlayConfig = false) →
      (PluginManager.run S host m calls).sampleRate = m.sampleRate ∧
      (PluginManager.run S host m calls).blockSize = m.blockSize := by
  induction calls with
  | nil => intro m _; exact ⟨rfl, rfl⟩
  | cons c cs ih =>
    intro m h
    have hc := call_keeps_config S host m c (h c (List.mem_cons_self c cs))
    have hcs := ih (PluginManager.call S host m c) (fun d hd => h d (List.mem_cons_of_mem c hd))
    exact ⟨hcs.1.trans hc.1, hcs.2.trans hc.2⟩

/-! ### Settings store -/

theorem getXmlValue_setValue_same (p : ApplicationProperties) (key : String) (xml : XmlElement) :
    (p.setValue key xml).getXmlValue key = some xml := by
  simp [ApplicationProperties.setValue, ApplicationProperties.getXmlValue]

theorem addTypeTo_keys (l : List PluginDescription) (d : PluginDescription) :
    (addTypeTo l d).map PluginDescription.key =
      if d.key ∈ l.map PluginDescription.key then l.map PluginDescription.key
      else l.map PluginDescription.key ++ [d.key] := by
  induction l with
  | nil => simp [addTypeTo]
  | cons e es ih =>
    by_cases hk : e.key = d.key
    · simp [addTypeTo, hk]
    · have hk2 : ¬ d.key = e.key := fun h => hk h.symm
      by_cases hmem : d.key ∈ es.map PluginDescription.key
      · simp only [addTypeTo, hk, if_false, List.map_cons, ih, hmem, if_true, List.mem_cons,
          or_true]
      · simp only [addTypeTo, hk, if_false, List.map_cons, ih, hmem, List.mem_cons, hk2,
          or_self, List.cons_append]

theorem addTypeTo_mem_keys (l : List PluginDescription) (d : PluginDescription)
    (k : String × String) :
    k ∈ (addTypeTo l d).map PluginDescription.key ↔
      k ∈ l.map PluginDescription.key ∨ k = d.key := by
  rw [addTypeTo_keys]
  by_cases hmem : d.key ∈ l.map PluginDescription.key
  · rw [if_pos hmem]
    constructor
    · exact Or.inl
    · rintro (h | h)
      · exact h
      · rw [h]; exact hmem
  · rw [if_neg hmem, List.mem_append, List.mem_singleton]

theorem addTypeTo_nodup (l : List PluginDescription) (d : PluginDescription)
    (h : (l.map PluginDescription.key).Nodup) :
    ((addTypeTo l d).map PluginDescription.key).Nodup := by
  rw [addTypeTo_keys]
  by_cases hmem : d.key ∈ l.map PluginDescription.key
  · rw [if_pos hmem]; exact h
  · rw [if_neg hmem]
    exact List.Nodup.append h (List.nodup_singleton _) (by
      intro k hk hk2
      rw [List.mem_singleton] at hk2
      exact hmem (hk2 ▸ hk))

theorem addTypeTo_of_not_mem (l : List PluginDescription) (d : PluginDescription)
    (h : d.key ∉ l.map PluginDescription.key) : addTypeTo l d = l ++ [d] := by
  induction l with
  | nil => rfl
  | cons e es ih =>
    have hk : ¬ e.key = d.key := fun e2 => h (by simp [e2])
    have hes : d.key ∉ es.map PluginDescription.key := fun e2 => h (by simp [e2])
    simp [addTypeTo, hk, ih hes]

theorem addAll_types (l : KnownPluginList) (ds : List PluginDescription) :
    (l.addAll ds).types = ds.foldl addTypeTo l.types := by
  induction ds generalizing l with
  | nil => rfl
  | cons d ds ih =>
    simp only [KnownPluginList.addAll, List.foldl_cons] at ih ⊢
    rw [ih]
    rfl

theorem foldl_addTypeTo_mem_keys (ds : List PluginDescription) :
    ∀ (l : List PluginDescription) (k : String × String),
      k ∈ (ds.foldl addTypeTo l).map PluginDescription.key ↔
        k ∈ l.map PluginDescription.key ∨ k ∈ ds.map PluginDescription.key := by
  induction ds with
  | nil => intro l k; simp
  | cons d ds ih =>
    intro l k
    rw [List.foldl_cons, ih, addTypeTo_mem_keys, List.map_cons, List.mem_cons, or_assoc]

theorem foldl_addTypeTo_nodup (ds : List PluginDescription) :
    ∀ l : List PluginDescription, (l.map PluginDescription.key).Nodup →
      ((ds.foldl addTypeTo l).map PluginDescription.key).Nodup := by
  induction ds with
  | nil => intro l h; exact h
  | cons d ds ih =>
    intro l h
    exact ih _ (addTypeTo_nodup l d h)

theorem foldl_addTypeTo_fresh (ds : List PluginDescription) :
    ∀ l : List PluginDescription, ((l ++ ds).map PluginDescription.key).Nodup →
      ds.foldl addTypeTo l = l ++ ds := by
  induction ds with
  | nil => intro l _; simp
  | cons d ds ih =>
    intro l h
    have hd : d.key ∉ l.map PluginDescription.key := by
      intro hmem
      rw [List.map_append, List.map_cons] at h
      have := (List.nodup_append.mp h).2.2
      exact this hmem (List.mem_cons_self _ _)
    rw [List.foldl_cons, addTypeTo_of_not_mem l d hd, ih]
    · simp
    · simpa using h

theorem headAfter_cons (e d : PluginDescription) (ds : List PluginDescription) :
    headAfter e (d :: ds) = headAfter (if e.key = d.key then d else e) ds := rfl

theorem headAfter_key (ds : List PluginDescription) :
    ∀ e : PluginDescription, (headAfter e ds).key = e.key := by
  induction ds with
  | nil => intro e; rfl
  | cons d ds ih =>
    intro e
    rw [headAfter_cons, ih]
    by_cases hk : e.key = d.key
    · rw [if_pos hk, hk]
    · rw [if_neg hk]

theorem headAfter_of_no_match (ds : List PluginDescription) :
    ∀ e : PluginDescription, (∀ d ∈ ds, d.key ≠ e.key) → headAfter e ds = e := by
  induction ds with
  | nil => intro e _; rfl
  | cons d ds ih =>
    intro e h
    have hk : ¬ e.key = d.key := fun e2 => h d (List.mem_cons_self _ _) e2.symm
    rw [headAfter_cons, if_neg hk]
    exact ih e (fun x hx => h x (List.mem_cons_of_mem _ hx))

theorem headAfter_same_key (ds : List PluginDescription) :
    ∀ e e2 : PluginDescription, e.key = e2.key → (∃ d ∈ ds, d.key = e.key) →
      headAfter e ds = headAfter e2 ds := by
  induction ds with
  | nil => intro e e2 _ h; obtain ⟨d, hd, -⟩ := h; cases hd
  | cons d ds ih =>
    intro e e2 hk h
    rw [headAfter_cons, headAfter_cons]
    by_cases hd : e.key = d.key
    · rw [if_pos hd, if_pos (hk ▸ hd)]
    · have hd2 : ¬ e2.key = d.key := fun e3 => hd (hk.trans e3)
      rw [if_neg hd, if_neg hd2]
      apply ih e e2 hk
      obtain ⟨x, hx, hxk⟩ := h
      rcases List.mem_cons.mp hx with rfl | hx
      · exact absurd hxk.symm hd
      · exact ⟨x, hx, hxk⟩

theorem headAfter_idem (e : PluginDescription) (ds : List PluginDescription) :
    headAfter (headAfter e ds) ds = headAfter e ds := by
  by_cases h : ∃ d ∈ ds, d.key = e.key
  · apply headAfter_same_key ds _ _ (headAfter_key ds e)
    obtain ⟨d, hd, hdk⟩ := h
    exact ⟨d, hd, hdk.trans (headAfter_key ds e).symm⟩
  · have h2 : ∀ d ∈ ds, d.key ≠ e.key := fun d hd hdk => h ⟨d, hd, hdk⟩
    rw [headAfter_of_no_match ds e h2, headAfter_of_no_match ds e h2]

theorem withoutKey_cons_same (k : String × String) (d : PluginDescription)
    (ds : List PluginDescription) (h : d.key = k) : withoutKey k (d :: ds) = withoutKey k ds := by
  simp [withoutKey, List.filter_cons, h]

theorem withoutKey_cons_other (k : String × String) (d : PluginDescription)
    (ds : List PluginDescription) (h : d.key ≠ k) :
    withoutKey k (d :: ds) = d :: withoutKey k ds := by
  simp [withoutKey, List.filter_cons, h]

theorem withoutKey_length_le (k : String × String) (ds : List PluginDescription) :
    (withoutKey k ds).length ≤ ds.length :=
  List.length_filter_le _ ds

theorem foldl_addTypeTo_cons (ds : List PluginDescription) :
    ∀ (e : PluginDescription) (es : List PluginDescription),
      ds.foldl addTypeTo (e :: es) =
        headAfter e ds :: (withoutKey e.key ds).foldl addTypeTo es := by
  induction ds with
  | nil => intro e es; rfl
  | cons d ds ih =>
    intro e es
    rw [List.foldl_cons, headAfter_cons]
    by_cases hk : e.key = d.key
    · rw [if_pos hk, withoutKey_cons_same _ _ _ hk.symm, hk]
      simp only [addTypeTo, hk, if_true]
      exact ih d es
    · rw [if_neg hk, withoutKey_cons_other _ _ _ (fun h => hk h.symm), List.foldl_cons]
      simp only [addTypeTo, hk, if_false]
      exact ih e (addTypeTo es d)

theorem foldl_addTypeTo_idem_aux (n : Nat) :
    ∀ (l ds : List PluginDescription), l.length + ds.length ≤ n →
      ds.foldl addTypeTo (ds.foldl addTypeTo l) = ds.foldl addTypeTo l := by
  induction n with
  | zero =>
    intro l ds h
    have hl : l = [] := List.length_eq_zero.mp (by omega)
    have hd : ds = [] := List.length_eq_zero.mp (by omega)
    subst hl hd
    rfl
  | succ n ih =>
    intro l ds h
    cases l with
    | nil =>
      cases ds with
      | nil => rfl
      | cons d ds =>
        have hstep : (d :: ds).foldl addTypeTo [] = ds.foldl addTypeTo [d] := rfl
        have hlen : ([] : List PluginDescription).length + (withoutKey d.key ds).length ≤ n := by
          have := withoutKey_length_le d.key ds
          simp only [List.length_cons, List.length_nil] at h ⊢
          omega
        have hhead : headAfter (headAfter d ds) (d :: ds) = headAfter d ds := by
          rw [headAfter_cons, if_pos (headAfter_key ds d)]
        rw [hstep, foldl_addTypeTo_cons ds d [], foldl_addTypeTo_cons (d :: ds), hhead,
          headAfter_key, withoutKey_cons_same _ _ _ rfl, ih _ _ hlen]
    | cons e es =>
      have hlen : es.length + (withoutKey e.key ds).length ≤ n := by
        have := withoutKey_length_le e.key ds
        simp only [List.length_cons] at h
        omega
      rw [foldl_addTypeTo_cons ds e es, foldl_addTypeTo_cons ds, headAfter_idem, headAfter_key,
        ih _ _ hlen]

theorem addAll_idem (l : KnownPluginList) (ds : List PluginDescription) :
    (l.addAll ds).addAll ds = l.addAll ds := by
  have h := foldl_addTypeTo_idem_aux (l.types.length + ds.length) l.types ds (Nat.le_refl _)
  have e1 : ((l.addAll ds).addAll ds).types = (l.addAll ds).types := by
    rw [addAll_types, addAll_types, h]
  cases hx : (l.addAll ds).addAll ds with
  | mk t1 =>
    cases hy : l.addAll ds with
    | mk t2 =>
      rw [hx, hy] at e1
      exact congrArg KnownPluginList.mk e1

/-! ## The claims -/

/-- C1: `format(n)` returns the backend at the smallest index whose name is
exactly `n`, returns null exactly when no registered backend has that name,
and appending a backend with `addFormat` does not change the result for any
name some registered backend already carries. -/
theorem format_first_match (m : PluginManager) (n : String) :
    (∀ b, m.format n = some b ↔
        ∃ i, m.formats.getFormat i = some b ∧ b.getName = n ∧
          ∀ j, j < i → ∀ g, m.formats.getFormat j = some g → g.getName ≠ n) ∧
    (m.format n = none ↔ ∀ b ∈ m.formats.formats, b.getName ≠ n) ∧
    (∀ fmt, (∃ b ∈ m.formats.formats, b.getName = n) →
        (m.addFormat fmt).format n = m.format n) := by
  refine ⟨?_, ?_, ?_⟩
  · intro b
    rw [format_eq_find, find_eq_some_index]
    simp [AudioPluginFormatManager.getFormat]
  · rw [format_eq_find, List.find?_eq_none]
    simp
  · rintro fmt ⟨b, hb, hn⟩
    rw [format_eq_find, format_eq_find]
    exact find_append_of_mem _ _ _ ⟨b, hb, by simpa using hn⟩

/-- C2 (as amended): `createAudioPlugin` hands back what the owning backend
produced for the stored sample rate and block size: its instance (error
message untouched), or null with its diagnostic verbatim, or null with the
format-unavailable message when no registered backend owns the description.
`createPlugin` does the same, except that an instance that is not a
`Processor` comes back as null with the error message untouched. -/
theorem createPlugin_outcome (m : PluginManager) (desc : PluginDescription) (errorMsg : String) :
    match m.format desc.pluginFormatName with
    | none =>
      (m.createAudioPlugin desc errorMsg).result = none ∧
      (m.createAudioPlugin desc errorMsg).errorMsg = formatUnavailable ∧
      (m.createPlugin desc errorMsg).result = none ∧
      (m.createPlugin desc errorMsg).errorMsg = formatUnavailable
    | some fmt =>
      match fmt.instantiate desc m.sampleRate m.blockSize with
      | Except.error diagnostic =>
        (m.createAudioPlugin desc errorMsg).result = none ∧
        (m.createAudioPlugin desc errorMsg).errorMsg = diagnostic ∧
        (m.createPlugin desc errorMsg).result = none ∧
        (m.createPlugin desc errorMsg).errorMsg = diagnostic
      | Except.ok inst =>
        (m.createAudioPlugin desc errorMsg).result = some inst ∧
        (m.createAudioPlugin desc errorMsg).errorMsg = errorMsg ∧
        (m.createPlugin desc errorMsg).result = (if inst.isProcessor then some inst else none) ∧
        (m.createPlugin desc errorMsg).errorMsg = errorMsg := by
  have hf : m.format desc.pluginFormatName = m.formats.findByName desc.pluginFormatName :=
    format_eq_find m _
  rw [hf]
  cases hfind : m.formats.findByName desc.pluginFormatName with
  | none =>
    simp [PluginManager.createPlugin, PluginManager.createAudioPlugin,
      AudioPluginFormatManager.createPluginInstance, hfind]
  | some fmt =>
    cases hinst : fmt.instantiate desc m.sampleRate m.blockSize with
    | error diagnostic =>
      simp [PluginManager.createPlugin, PluginManager.createAudioPlugin,
        AudioPluginFormatManager.createPluginInstance, hfind, hinst]
    | ok inst =>
      simp [PluginManager.createPlugin, PluginManager.createAudioPlugin,
        AudioPluginFormatManager.createPluginInstance, hfind, hinst, dynamicCastProcessor]

/-- C2 fails as stated: with a backend whose instances are not `Processor`
objects, the backend produces an instance, yet `createPlugin` returns null and
the error message is still the empty string the caller passed in. -/
theorem createPlugin_drops_instance :
    (∃ inst, vstFormat.instantiate synthDescription 44100 512 = Except.ok inst) ∧
    ((PluginManager.new.addFormat vstFormat).createPlugin synthDescription "").result = none ∧
    ((PluginManager.new.addFormat vstFormat).createPlugin synthDescription "").errorMsg = "" := by
  refine ⟨⟨_, rfl⟩, ?_, ?_⟩ <;> rfl

/-- C3: with an empty registry, `createAudioPlugin` and `createPlugin` return no
instance for any description, report the format-unavailable failure, and
leave the manager (catalogue, registry, sample rate, block size) as it was. -/
theorem createPlugin_empty_registry (m : PluginManager) (h : m.formats.getNumFormats = 0)
    (desc : PluginDescription) (errorMsg : String) :
    (m.createAudioPlugin desc errorMsg).result = none ∧
    (m.createAudioPlugin desc errorMsg).errorMsg = formatUnavailable ∧
    (m.createAudioPlugin desc errorMsg).manager = m ∧
    (m.createPlugin desc errorMsg).result = none ∧
    (m.createPlugin desc errorMsg).errorMsg = formatUnavailable ∧
    (m.createPlugin desc errorMsg).manager = m := by
  have hnil : m.formats.formats = [] := List.length_eq_zero.mp h
  have hfind : m.formats.findByName desc.pluginFormatName = none := by
    simp [AudioPluginFormatManager.findByName, hnil]
  simp [PluginManager.createPlugin, PluginManager.createAudioPlugin,
    AudioPluginFormatManager.createPluginInstance, hfind]

/-- C3 at a concrete input: the freshly constructed manager. -/
theorem createPlugin_empty_registry_witness :
    PluginManager.new.formats.getNumFormats = 0 ∧
    (PluginManager.new.createAudioPlugin gainDescription "").result = none ∧
    (PluginManager.new.createAudioPlugin gainDescription "").errorMsg = formatUnavailable ∧
    (PluginManager.new.createPlugin gainDescription "").result = none ∧
    (PluginManager.new.createPlugin gainDescription "").errorMsg = formatUnavailable :=
  have h := createPlugin_empty_registry PluginManager.new rfl gainDescription ""
  ⟨rfl, h.1, h.2.1, h.2.2.2.1, h.2.2.2.2.1⟩

/-- C4: after `setPlayConfig(sr, bs)`, and through any further calls other than
`setPlayConfig`, `createAudioPlugin` hands exactly `(sr, bs)` to the format
manager and so to the owning backend; a manager on which `setPlayConfig` was
never called hands over 44100 and 512; `setPlayConfig` leaves the catalogue
and the registry as they were; of two calls for one description separated by
`setPlayConfig(sr2, bs2)`, the first is made with `(sr, bs)` and the second
with `(sr2, bs2)`. -/
theorem setPlayConfig_forwarded (S : Settings) (host : Host) (m : PluginManager)
    (sr : Rat) (bs : Int) (calls : List Call)
    (h : ∀ c ∈ calls, c.isSetPlayConfig = false)
    (desc : PluginDescription) (errorMsg : String) :
    (m.setPlayConfig sr bs).allPlugins = m.allPlugins ∧
    (m.setPlayConfig sr bs).formats = m.formats ∧
    (m.setPlayConfig sr bs).sampleRate = sr ∧
    (m.setPlayConfig sr bs).blockSize = bs ∧
    ((PluginManager.run S host (m.setPlayConfig sr bs) calls).createAudioPlugin desc errorMsg).result =
      ((PluginManager.run S host (m.setPlayConfig sr bs) calls).formats.createPluginInstance
        desc sr bs errorMsg).1 ∧
    ((PluginManager.run S host (m.setPlayConfig sr bs) calls).createAudioPlugin desc errorMsg).errorMsg =
      ((PluginManager.run S host (m.setPlayConfig sr bs) calls).formats.createPluginInstance
        desc sr bs errorMsg).2 ∧
    (∀ fmt, (PluginManager.run S host (m.setPlayConfig sr bs) calls).format desc.pluginFormatName
        = some fmt →
      ((PluginManager.run S host (m.setPlayConfig sr bs) calls).createAudioPlugin desc errorMsg).result
        = (fmt.instantiate desc sr bs).toOption) ∧
    ((PluginManager.run S host PluginManager.new calls).createAudioPlugin desc errorMsg).result =
      ((PluginManager.run S host PluginManager.new calls).formats.createPluginInstance
        desc 44100 512 errorMsg).1 ∧
    (∀ (sr2 : Rat) (bs2 : Int),
      ((m.setPlayConfig sr bs).createAudioPlugin desc errorMsg).result =
        (m.formats.createPluginInstance desc sr bs errorMsg).1 ∧
      ((((m.setPlayConfig sr bs).createAudioPlugin desc errorMsg).manager.setPlayConfig
          sr2 bs2).createAudioPlugin desc errorMsg).result =
        (m.formats.createPluginInstance desc sr2 bs2 errorMsg).1) := by
  have h1 := run_keeps_config S host calls (m.setPlayConfig sr bs) h
  have h0 := run_keeps_config S host calls PluginManager.new h
  have hsr : (PluginManager.run S host (m.setPlayConfig sr bs) calls).sampleRate = sr := h1.1
  have hbs : (PluginManager.run S host (m.setPlayConfig sr bs) calls).blockSize = bs := h1.2
  have hsr0 : (PluginManager.run S host PluginManager.new calls).sampleRate = 44100 := h0.1
  have hbs0 : (PluginManager.run S host PluginManager.new calls).blockSize = 512 := h0.2
  refine ⟨rfl, rfl, rfl, rfl, ?_, ?_, ?_, ?_, fun _ _ => ⟨rfl, rfl⟩⟩
  · simp only [PluginManager.createAudioPlugin, hsr, hbs]
  · simp only [PluginManager.createAudioPlugin, hsr, hbs]
  · intro fmt hfmt
    rw [format_eq_find] at hfmt
    simp only [PluginManager.createAudioPlugin, hsr, hbs,
      AudioPluginFormatManager.createPluginInstance, AudioPluginFormatManager.findByName, hfmt]
    cases fmt.instantiate desc sr bs <;> rfl
  · simp only [PluginManager.createAudioPlugin, hsr0, hbs0]

/-- C4 at a concrete input: a native backend is registered and an internal scan
runs after `setPlayConfig (48000, 256)`; the instance then created was built
with 48000 and 256. -/
theorem setPlayConfig_forwarded_witness :
    (∀ c ∈ [Call.addFormat elementFormat, Call.scanInternalPlugins],
      c.isSetPlayConfig = false) ∧
    ((PluginManager.run sampleSettings { JUCE_MAC := false, isOperatingSystem64Bit := true }
        (PluginManager.new.setPlayConfig 48000 256)
        [Call.addFormat elementFormat, Call.scanInternalPlugins]).createAudioPlugin
      gainDescription "").result =
      some { description := gainDescription, sampleRate := 48000, blockSize := 256,
             isProcessor := true } :=
  have hcalls : ∀ c ∈ [Call.addFormat elementFormat, Call.scanInternalPlugins],
      c.isSetPlayConfig = false := by
    intro c hc
    simp only [List.mem_cons, List.mem_singleton, List.not_mem_nil, or_false] at hc
    rcases hc with rfl | rfl <;> rfl
  have hformat : (PluginManager.run sampleSettings
      { JUCE_MAC := false, isOperatingSystem64Bit := true }
      (PluginManager.new.setPlayConfig 48000 256)
      [Call.addFormat elementFormat, Call.scanInternalPlugins]).format
        gainDescription.pluginFormatName = some elementFormat := by
    rw [format_eq_find]
    simp only [PluginManager.run, List.foldl_cons, List.foldl_nil, PluginManager.call,
      scanInternalPlugins_eq]
    rfl
  ⟨hcalls, (setPlayConfig_forwarded sampleSettings
      { JUCE_MAC := false, isOperatingSystem64Bit := true } PluginManager.new 48000 256
      [Call.addFormat elementFormat, Call.scanInternalPlugins] hcalls gainDescription
      "").2.2.2.2.2.2.1 elementFormat hformat⟩

/-- C6 (as amended): `restoreUserPlugins` on a document always replaces the
catalogue by what the document holds and then runs `scanInternalPlugins`;
`restoreUserPlugins` on a store does exactly that with the document stored
under `pluginListKey()` when there is one, and otherwise leaves the manager
untouched: nothing is replaced and no scan runs. -/
theorem restoreUserPlugins_outcome (S : Settings) (host : Host) (m : PluginManager)
    (settings : ApplicationProperties) (xml : XmlElement) :
    m.restoreUserPluginsXml xml =
      PluginManager.scanInternalPlugins { m with allPlugins := m.allPlugins.recreateFromXml xml } ∧
    (m.restoreUserPluginsXml xml).allPlugins =
      (KnownPluginList.addAll { types := [] } (xml.entries.filterMap XmlEntry.load)).addAll
        m.internalFinds ∧
    PluginManager.restoreUserPlugins S host m settings =
      (match settings.getXmlValue (pluginListKey S host) with
       | some doc =>
         PluginManager.scanInternalPlugins { m with allPlugins := m.allPlugins.recreateFromXml doc }
       | none => m) := by
  refine ⟨rfl, ?_, rfl⟩
  rw [PluginManager.restoreUserPluginsXml, scanInternalPlugins_eq]
  rfl

/-- C6 fails as stated: on a store that holds nothing under the key,
`restoreUserPlugins` runs no internal scan: the catalogue stays empty although
a scan of the registered native backend would add the gain plugin. -/
theorem restoreUserPlugins_without_scan :
    (PluginManager.restoreUserPlugins sampleSettings
        { JUCE_MAC := false, isOperatingSystem64Bit := true }
        (PluginManager.new.addFormat elementFormat) { userSettings := [] }).allPlugins
      = { types := [] } ∧
    (PluginManager.new.addFormat elementFormat).scanInternalPlugins.allPlugins
      = { types := [gainDescription] } := by
  refine ⟨rfl, ?_⟩
  rw [scanInternalPlugins_eq]
  rfl

/-- C8 (as amended): saving a catalogue and restoring it from the same store on
the same host yields the round-tripped catalogue with the internal scan run
on top: every key of the saved catalogue is kept, no key occurs twice, and
the only other keys are those of the plugins the restoring manager's internal
scan finds.  A catalogue without duplicate keys comes back exactly, followed
by that scan; when nothing is found the key set is that of the saved
catalogue. -/
theorem save_restore_catalogue (S : Settings) (host : Host) (m r : PluginManager)
    (settings : ApplicationProperties) :
    PluginManager.restoreUserPlugins S host r (PluginManager.saveUserPlugins S host m settings) =
      PluginManager.scanInternalPlugins
        { r with allPlugins := r.allPlugins.recreateFromXml m.allPlugins.createXml } ∧
    (∀ k, k ∈ (PluginManager.restoreUserPlugins S host r
          (PluginManager.saveUserPlugins S host m settings)).allPlugins.keys ↔
        k ∈ m.allPlugins.keys ∨ k ∈ r.internalFinds.map PluginDescription.key) ∧
    (PluginManager.restoreUserPlugins S host r
        (PluginManager.saveUserPlugins S host m settings)).allPlugins.keys.Nodup ∧
    (m.allPlugins.keys.Nodup →
      (PluginManager.restoreUserPlugins S host r
        (PluginManager.saveUserPlugins S host m settings)).allPlugins =
          m.allPlugins.addAll r.internalFinds) ∧
    (r.internalFinds = [] → ∀ k,
      k ∈ (PluginManager.restoreUserPlugins S host r
          (PluginManager.saveUserPlugins S host m settings)).allPlugins.keys ↔
        k ∈ m.allPlugins.keys) := by
  have hrestore : PluginManager.restoreUserPlugins S host r
      (PluginManager.saveUserPlugins S host m settings) =
      PluginManager.scanInternalPlugins
        { r with allPlugins := r.allPlugins.recreateFromXml m.allPlugins.createXml } := by
    simp only [PluginManager.restoreUserPlugins, PluginManager.saveUserPlugins,
      getXmlValue_setValue_same, PluginManager.restoreUserPluginsXml]
  have hload : (m.allPlugins.createXml.entries.filterMap XmlEntry.load) = m.allPlugins.types := by
    simp only [KnownPluginList.createXml, List.filterMap_map]
    have : (XmlEntry.load ∘ XmlEntry.plugin) = (some : PluginDescription → _) := rfl
    rw [this, List.filterMap_some]
  have hfinds : PluginManager.internalFinds
      { r with allPlugins := r.allPlugins.recreateFromXml m.allPlugins.createXml } =
      r.internalFinds := rfl
  have htypes : (PluginManager.restoreUserPlugins S host r
      (PluginManager.saveUserPlugins S host m settings)).allPlugins.types =
      r.internalFinds.foldl addTypeTo (m.allPlugins.types.foldl addTypeTo []) := by
    rw [hrestore, scanInternalPlugins_eq, hfinds]
    simp only [KnownPluginList.recreateFromXml, hload]
    rw [addAll_types, addAll_types]
  have hkeys : ∀ k, k ∈ (PluginManager.restoreUserPlugins S host r
      (PluginManager.saveUserPlugins S host m settings)).allPlugins.keys ↔
      k ∈ m.allPlugins.keys ∨ k ∈ r.internalFinds.map PluginDescription.key := by
    intro k
    simp only [KnownPluginList.keys, htypes]
    rw [foldl_addTypeTo_mem_keys, foldl_addTypeTo_mem_keys]
    simp
  refine ⟨hrestore, hkeys, ?_, ?_, ?_⟩
  · simp only [KnownPluginList.keys, htypes]
    exact foldl_addTypeTo_nodup _ _ (foldl_addTypeTo_nodup _ _ List.nodup_nil)
  · intro hnodup
    have hback : m.allPlugins.types.foldl addTypeTo [] = m.allPlugins.types := by
      rw [foldl_addTypeTo_fresh _ [] (by simpa [KnownPluginList.keys] using hnodup)]
      simp
    have h2 : (m.allPlugins.addAll r.internalFinds).types =
        r.internalFinds.foldl addTypeTo m.allPlugins.types := addAll_types _ _
    rw [hback, ← h2] at htypes
    cases hx : (PluginManager.restoreUserPlugins S host r
        (PluginManager.saveUserPlugins S host m settings)).allPlugins with
    | mk t1 =>
      cases hy : m.allPlugins.addAll r.internalFinds with
      | mk t2 =>
        rw [hx, hy] at htypes
        exact congrArg KnownPluginList.mk htypes
  · intro hnil k
    rw [hkeys, hnil]
    simp

/-- C8 fails as stated: with a native backend registered, saving the empty
catalogue and restoring it yields a catalogue holding the gain plugin, an
entry the saved catalogue did not have. -/
theorem save_restore_adds_entry :
    (PluginManager.new.addFormat elementFormat).allPlugins.keys = [] ∧
    (PluginManager.restoreUserPlugins sampleSettings
        { JUCE_MAC := false, isOperatingSystem64Bit := true }
        (PluginManager.new.addFormat elementFormat)
        (PluginManager.saveUserPlugins sampleSettings
          { JUCE_MAC := false, isOperatingSystem64Bit := true }
          (PluginManager.new.addFormat elementFormat) { userSettings := [] })).allPlugins.keys
      = [("Element", "gain")] := by
  refine ⟨rfl, ?_⟩
  have hget : (PluginManager.saveUserPlugins sampleSettings
      { JUCE_MAC := false, isOperatingSystem64Bit := true }
      (PluginManager.new.addFormat elementFormat) { userSettings := [] }).getXmlValue
        (pluginListKey sampleSettings { JUCE_MAC := false, isOperatingSystem64Bit := true })
      = some { entries := [] } := rfl
  simp only [PluginManager.restoreUserPlugins, hget, PluginManager.restoreUserPluginsXml]
  rw [scanInternalPlugins_eq]
  rfl

/-- C9: running `scanInternalPlugins` a second time changes nothing: the
manager, and so the catalogue, is what the first run left, the number of
native-format entries is the same, and a catalogue that started without
duplicate keys still has none. -/
theorem scanInternalPlugins_twice (m : PluginManager) (h : m.allPlugins.keys.Nodup) :
    m.scanInternalPlugins.scanInternalPlugins = m.scanInternalPlugins ∧
    m.scanInternalPlugins.scanInternalPlugins.allPlugins = m.scanInternalPlugins.allPlugins ∧
    m.scanInternalPlugins.scanInternalPlugins.allPlugins.nativeCount =
      m.scanInternalPlugins.allPlugins.nativeCount ∧
    m.scanInternalPlugins.allPlugins.keys.Nodup ∧
    m.scanInternalPlugins.scanInternalPlugins.allPlugins.keys.Nodup := by
  have hfinds : PluginManager.internalFinds
      { m with allPlugins := m.allPlugins.addAll m.internalFinds } = m.internalFinds := rfl
  have htwice : m.scanInternalPlugins.scanInternalPlugins = m.scanInternalPlugins := by
    rw [scanInternalPlugins_eq m, scanInternalPlugins_eq, hfinds]
    simp only [addAll_idem]
  have hnodup : m.scanInternalPlugins.allPlugins.keys.Nodup := by
    rw [scanInternalPlugins_eq]
    simp only [KnownPluginList.keys, addAll_types]
    exact foldl_addTypeTo_nodup _ _ h
  refine ⟨htwice, ?_, ?_, hnodup, ?_⟩
  · rw [htwice]
  · rw [htwice]
  · rw [htwice]
    exact hnodup

/-- C9 at a concrete input: a manager with the native backend registered and an
empty catalogue; the first scan adds the gain plugin, the second adds
nothing. -/
theorem scanInternalPlugins_twice_witness :
    (PluginManager.new.addFormat elementFormat).allPlugins.keys.Nodup ∧
    (PluginManager.new.addFormat elementFormat).scanInternalPlugins.allPlugins.types
      = [gainDescription] ∧
    (PluginManager.new.addFormat elementFormat).scanInternalPlugins.scanInternalPlugins.allPlugins
      = (PluginManager.new.addFormat elementFormat).scanInternalPlugins.allPlugins :=
  have hnodup : (PluginManager.new.addFormat elementFormat).allPlugins.keys.Nodup :=
    List.nodup_nil
  have hfirst : (PluginManager.new.addFormat elementFormat).scanInternalPlugins.allPlugins.types
      = [gainDescription] := by
    rw [scanInternalPlugins_eq]
    rfl
  ⟨hnodup, hfirst,
    (scanInternalPlugins_twice (PluginManager.new.addFormat elementFormat) hnodup).2.1⟩

/-- The guard of `handleSizeResult`: a result code of 1 or less (0 when the menu
is dismissed) runs no callback and leaves the editor as it was, and a code
above 1 resizes an existing node to that code by that code. -/
theorem handleSizeResult_guard (r : Int) (owner : AudioRouterEditor) :
    (r ≤ 1 → (contentSizeButton.handleSizeResult r owner).2 = owner) ∧
    (clickSizeEntry none owner = owner) ∧
    (1 < r → ∀ node, owner.node = some node →
      (contentSizeButton.handleSizeResult r owner).2.node =
        some { numSources := r, numDestinations := r }) := by
  refine ⟨?_, ?_, ?_⟩
  · intro hr
    have : ¬ r > 1 := by omega
    simp [AudioRouterSizeButton.handleSizeResult, contentSizeButton, this]
  · simp [clickSizeEntry, menuResult, AudioRouterSizeButton.sizeChosen,
      AudioRouterSizeButton.handleSizeResult, contentSizeButton]
  · intro hr node hnode
    have : r > 1 := hr
    simp only [AudioRouterSizeButton.handleSizeResult, contentSizeButton, this, if_true,
      Content.onAudioRouterSizeChanged, hnode]
    cases owner.autoResize <;> simp [AudioRouterNode.setSize]

/-- C10, the code at the failing input: picking the entry labelled "12x12"
delivers result code 10, and an existing router node is resized to 10 by 10,
not 12 by 12; every other entry delivers the number in its label. -/
theorem size_menu_12x12 (node : AudioRouterNode) (autoResize : Bool) (rows columns : Int) :
    sizeLabel 12 = "12x12" ∧
    menuResult sizeMenu (some (sizeLabel 12)) = 10 ∧
    (clickSizeEntry (some (sizeLabel 12))
        { node := some node, autoResize := autoResize, matrixRows := rows,
          matrixColumns := columns }).node =
      some { numSources := 10, numDestinations := 10 } ∧
    (∀ n ∈ [2, 4, 8, 10, 16], menuResult sizeMenu (some (sizeLabel n)) = (n : Int)) := by
  refine ⟨by decide, by decide, ?_, by decide⟩
  have hres : menuResult sizeMenu (some (sizeLabel 12)) = 10 := by decide
  simp only [clickSizeEntry, hres, AudioRouterSizeButton.sizeChosen,
    AudioRouterSizeButton.handleSizeResult, contentSizeButton, Content.onAudioRouterSizeChanged]
  cases autoResize <;> simp [AudioRouterNode.setSize]

end Element
